import Mathlib

/-!
Shallow embedding of the IBM FSI CFAM hub model (hw/fsi/cfam.c):
the configuration-region decode and break-reset logic, the local
secondary bus of engines, the scratchpad engine, and the 2 MiB
address-space dispatch.

Machine integers are modelled as `Nat` with explicit truncation
(`% 2 ^ 32`) where the C code narrows a 64-bit datum into a 32-bit
register. Reads are pure functions; writes are state transformers.
-/

/-- Big-endian bit numbering over a 32-bit word.
Modelled from the spec: the macro comes from the fsi header, which is not
under src; big-endian bit 0 is the most significant bit of the 32-bit word
(the continuation flag of a descriptor word). -/
def BE_BIT (x : Nat) : Nat := 2 ^ (31 - x)

/-- `ENGINE_CONFIG_NEXT` from cfam.c: continuation flag of a descriptor. -/
def ENGINE_CONFIG_NEXT : Nat := BE_BIT 0

/-- `ENGINE_CONFIG_TYPE_PEEK` from cfam.c. -/
def ENGINE_CONFIG_TYPE_PEEK : Nat := 0x02 <<< 4

/-- `ENGINE_CONFIG_TYPE_FSI` from cfam.c. -/
def ENGINE_CONFIG_TYPE_FSI : Nat := 0x03 <<< 4

/-- `ENGINE_CONFIG_TYPE_SCRATCHPAD` from cfam.c. -/
def ENGINE_CONFIG_TYPE_SCRATCHPAD : Nat := 0x06 <<< 4

/-- `TO_REG(x) = x >> 2` from cfam.c: byte address to 4-byte register unit. -/
def TO_REG (x : Nat) : Nat := x >>> 2

/-- `CFAM_CONFIG_CHIP_ID = TO_REG(0x00)` from cfam.c. -/
def CFAM_CONFIG_CHIP_ID : Nat := TO_REG 0x00

/-- `CFAM_CONFIG_CHIP_ID_P9` from cfam.c: the fixed chip identity word. -/
def CFAM_CONFIG_CHIP_ID_P9 : Nat := 0xc0022d15

/-- `CFAM_CONFIG_CHIP_ID_BREAK` from cfam.c: the break/recovery sentinel. -/
def CFAM_CONFIG_CHIP_ID_BREAK : Nat := 0xc0de0000

/-- The descriptor word returned for a config read at 0x04 (PEEK pseudo engine),
exactly the OR of the fields in `fsi_cfam_config_read`. -/
def PEEK_DESCRIPTOR : Nat :=
  ENGINE_CONFIG_NEXT ||| 0x00010000 ||| 0x00001000 |||
    ENGINE_CONFIG_TYPE_PEEK ||| 0x0000000c

/-- The descriptor word returned for a config read at 0x08 (FSI pseudo engine),
exactly the OR of the fields in `fsi_cfam_config_read`. -/
def FSI_DESCRIPTOR : Nat :=
  ENGINE_CONFIG_NEXT ||| 0x00010000 ||| 0x00005000 |||
    ENGINE_CONFIG_TYPE_FSI ||| 0x0000000a

/-- The class-level descriptor word of the scratchpad engine, exactly the OR
of the fields set in `fsi_scratchpad_class_init` (`ldc->config`). -/
def SCRATCHPAD_DESCRIPTOR : Nat :=
  ENGINE_CONFIG_NEXT ||| 0x00010000 ||| 0x00001000 |||
    ENGINE_CONFIG_TYPE_SCRATCHPAD ||| 0x00000007

/-- An engine attached to the local secondary bus (`FSILBusDevice` plus the
scratchpad instance state). `config` is the class-level immutable descriptor
word (`FSILBusDeviceClass::config`); `reg` is the instance register state.
The only engine class in cfam.c is the scratchpad, whose instance state is one
32-bit register (`FSIScratchPad::reg`, modelled from the spec: the struct
lives in the cfam header, which is not under src; the spec says one mutable
32-bit word, initial value 0). -/
structure FSILBusDevice where
  config : Nat
  reg : Nat
  deriving Repr, DecidableEq

/-- The mutable CFAM state: the ordered list of engines attached to the
local secondary bus (`cfam->lbus.bus.children` in attachment order). -/
structure FSICFAMState where
  engines : List FSILBusDevice
  deriving Repr, DecidableEq

/-- `fsi_scratchpad_reset` from cfam.c: the register returns to 0. -/
def fsi_scratchpad_reset (e : FSILBusDevice) : FSILBusDevice :=
  { e with reg := 0 }

/-- `bus_cold_reset(BUS(&cfam->lbus))`: broadcast reset to every attached
engine. The only engine class in cfam.c is the scratchpad, whose reset
handler is `fsi_scratchpad_reset`. -/
def bus_cold_reset (s : FSICFAMState) : FSICFAMState :=
  { engines := s.engines.map fsi_scratchpad_reset }

/-- The engine-table walk in the default branch of `fsi_cfam_config_read`:
`i` starts at 0xc and advances by `size` per attached engine; a match on an
engine slot returns that engine class descriptor; a match on the address just
past the last engine returns 0; otherwise the break sentinel is returned. -/
def configTableRead (i addr size : Nat) : List FSILBusDevice → Nat
  | [] => if i = addr then 0 else CFAM_CONFIG_CHIP_ID_BREAK
  | e :: rest =>
      if i = addr then e.config else configTableRead (i + size) addr size rest

/-- `fsi_cfam_config_read` from cfam.c: decode of a read of the
configuration region. -/
def fsi_cfam_config_read (cfam : FSICFAMState) (addr size : Nat) : Nat :=
  if addr = 0x00 then CFAM_CONFIG_CHIP_ID_P9
  else if addr = 0x04 then PEEK_DESCRIPTOR
  else if addr = 0x08 then FSI_DESCRIPTOR
  else configTableRead 0xc addr size cfam.engines

/-- `fsi_cfam_config_write` from cfam.c: the switch is on `TO_REG(addr)`,
with cases `CFAM_CONFIG_CHIP_ID` and `CFAM_CONFIG_CHIP_ID + 4`; writing the
break sentinel there cold-resets the secondary bus, every other write is a
no-op. -/
def fsi_cfam_config_write (cfam : FSICFAMState) (addr data _size : Nat) :
    FSICFAMState :=
  if TO_REG addr = CFAM_CONFIG_CHIP_ID ∨
      TO_REG addr = CFAM_CONFIG_CHIP_ID + 4 then
    if data = CFAM_CONFIG_CHIP_ID_BREAK then bus_cold_reset cfam else cfam
  else cfam

/-- `fsi_scratchpad_read` from cfam.c: offset 0 returns the register, any
other offset in the window returns 0. -/
def fsi_scratchpad_read (e : FSILBusDevice) (addr _size : Nat) : Nat :=
  if addr ≠ 0 then 0 else e.reg

/-- `fsi_scratchpad_write` from cfam.c: offset 0 stores the datum into the
32-bit register (the uint64 datum is narrowed to uint32), any other offset is
a no-op. -/
def fsi_scratchpad_write (e : FSILBusDevice) (addr data _size : Nat) :
    FSILBusDevice :=
  if addr ≠ 0 then e else { e with reg := data % 2 ^ 32 }

/-- `fsi_cfam_unimplemented_read` from cfam.c: always 0. -/
def fsi_cfam_unimplemented_read (_addr _size : Nat) : Nat := 0

/-- `fsi_cfam_unimplemented_write` from cfam.c: no state change. -/
def fsi_cfam_unimplemented_write (s : FSICFAMState) (_addr _data _size : Nat) :
    FSICFAMState := s

/-- Read dispatch of the secondary-bus region (`cfam->lbus.mr`): the
scratchpad engine window is mapped at offset 0 with size 0x400
(`fsi_scratchpad_realize` and `fsi_cfam_realize`); the head of the engine
list is the scratchpad attached at realize. A hole in the container region
falls through to the unimplemented background of the 2 MiB window. -/
def fsi_lbus_read (s : FSICFAMState) (addr size : Nat) : Nat :=
  if addr < 0x400 then
    match s.engines with
    | e :: _ => fsi_scratchpad_read e addr size
    | [] => fsi_cfam_unimplemented_read addr size
  else fsi_cfam_unimplemented_read addr size

/-- Write dispatch of the secondary-bus region, mirroring `fsi_lbus_read`. -/
def fsi_lbus_write (s : FSICFAMState) (addr data size : Nat) : FSICFAMState :=
  if addr < 0x400 then
    match s.engines with
    | e :: rest => { engines := fsi_scratchpad_write e addr data size :: rest }
    | [] => s
  else fsi_cfam_unimplemented_write s addr data size

/-- Read dispatch of the 2 MiB CFAM window built in `fsi_cfam_realize`:
config region at [0, 0x400), the primary-slave window of width `W` at 0x800
(its behaviour is the external collaborator `slaveRead`), the secondary-bus
region of width `X` at 0xC00, and the unimplemented background elsewhere. -/
def fsi_cfam_mmio_read (slaveRead : Nat → Nat → Nat) (W X : Nat)
    (s : FSICFAMState) (a size : Nat) : Nat :=
  if a < 0x400 then fsi_cfam_config_read s a size
  else if 0x800 ≤ a ∧ a < 0x800 + W then slaveRead (a - 0x800) size
  else if 0xC00 ≤ a ∧ a < 0xC00 + X then fsi_lbus_read s (a - 0xC00) size
  else fsi_cfam_unimplemented_read a size

/-- Write dispatch of the 2 MiB CFAM window. A write into the primary-slave
window mutates only the external slave state, never the CFAM engine state. -/
def fsi_cfam_mmio_write (W X : Nat) (s : FSICFAMState) (a data size : Nat) :
    FSICFAMState :=
  if a < 0x400 then fsi_cfam_config_write s a data size
  else if 0x800 ≤ a ∧ a < 0x800 + W then s
  else if 0xC00 ≤ a ∧ a < 0xC00 + X then fsi_lbus_write s (a - 0xC00) data size
  else fsi_cfam_unimplemented_write s a data size

/-- The scratchpad engine as constructed (`instance_init` plus QOM zero
initialisation of the instance register). -/
def fsi_scratchpad_initial : FSILBusDevice :=
  { config := SCRATCHPAD_DESCRIPTOR, reg := 0 }

/-- The CFAM state produced by `fsi_cfam_realize`: exactly one engine, the
default scratchpad, attached to the secondary bus. -/
def fsi_cfam_initial : FSICFAMState :=
  { engines := [fsi_scratchpad_initial] }

/-! ## Helper lemmas -/

theorem configTableRead_slot (l : List FSILBusDevice) :
    ∀ (i k : Nat) (hk : k < l.length),
      configTableRead i (i + 4 * k) 4 l = (l.get ⟨k, hk⟩).config := by
  induction l with
  | nil => intro i k hk; exact absurd hk (by simp)
  | cons e rest ih =>
      intro i k hk
      cases k with
      | zero => simp [configTableRead]
      | succ k =>
          have harith : i + 4 * (k + 1) = (i + 4) + 4 * k := by ring
          rw [harith]
          simp only [configTableRead]
          rw [if_neg (by omega)]
          exact ih (i + 4) k (Nat.lt_of_succ_lt_succ hk)

theorem configTableRead_end (l : List FSILBusDevice) :
    ∀ i : Nat, configTableRead i (i + 4 * l.length) 4 l = 0 := by
  induction l with
  | nil => intro i; simp [configTableRead]
  | cons e rest ih =>
      intro i
      have hne : i ≠ i + 4 * (rest.length + 1) := by omega
      have harith : i + 4 * ((e :: rest).length) = (i + 4) + 4 * rest.length := by
        simp [List.length_cons]; ring
      simp only [List.length_cons] at hne
      simp only [configTableRead, harith]
      rw [if_neg (by omega)]
      exact ih (i + 4)

theorem configTableRead_miss (l : List FSILBusDevice) :
    ∀ i addr : Nat, (∀ k, k ≤ l.length → addr ≠ i + 4 * k) →
      configTableRead i addr 4 l = CFAM_CONFIG_CHIP_ID_BREAK := by
  induction l with
  | nil =>
      intro i addr h
      have := h 0 (by simp)
      simp only [configTableRead]
      rw [if_neg (by omega)]
  | cons e rest ih =>
      intro i addr h
      have h0 := h 0 (by simp)
      simp only [configTableRead]
      rw [if_neg (by omega)]
      refine ih (i + 4) addr ?_
      intro k hk
      have := h (k + 1) (by simp [List.length_cons]; omega)
      omega

theorem map_reset_idem (l : List FSILBusDevice) :
    (l.map fsi_scratchpad_reset).map fsi_scratchpad_reset =
      l.map fsi_scratchpad_reset := by
  induction l with
  | nil => rfl
  | cons e rest ih => simp [fsi_scratchpad_reset, ih]

theorem map_config_map_reset (l : List FSILBusDevice) :
    (l.map fsi_scratchpad_reset).map FSILBusDevice.config =
      l.map FSILBusDevice.config := by
  induction l with
  | nil => rfl
  | cons e rest ih => simp [fsi_scratchpad_reset, ih]

theorem fsi_scratchpad_write_config (e : FSILBusDevice) (a d sz : Nat) :
    (fsi_scratchpad_write e a d sz).config = e.config := by
  unfold fsi_scratchpad_write
  split <;> rfl

/-! ## Claim theorems -/

/-- Claim C1: a 4-byte config-region read at byte address at least 0x0C walks
the attached engines in attachment order at addresses 0x0C, 0x10, ... with
stride 4: a match on the k-th engine slot returns that engine class-level
descriptor word; the address immediately after the last engine returns 0; any
other such address returns the break/recovery sentinel. With exactly the
default scratchpad attached: read 0x0C is the scratchpad descriptor, read
0x10 is 0, read 0x14 is the break sentinel. -/
theorem cfam_config_engine_table_walk (s : FSICFAMState) (addr : Nat)
    (h : 0x0C ≤ addr) :
    (∀ (k : Nat) (hk : k < s.engines.length), addr = 0x0C + 4 * k →
        fsi_cfam_config_read s addr 4 = (s.engines.get ⟨k, hk⟩).config)
    ∧ (addr = 0x0C + 4 * s.engines.length → fsi_cfam_config_read s addr 4 = 0)
    ∧ ((∀ k, k ≤ s.engines.length → addr ≠ 0x0C + 4 * k) →
        fsi_cfam_config_read s addr 4 = CFAM_CONFIG_CHIP_ID_BREAK)
    ∧ fsi_cfam_config_read fsi_cfam_initial 0x0C 4 = SCRATCHPAD_DESCRIPTOR
    ∧ fsi_cfam_config_read fsi_cfam_initial 0x10 4 = 0
    ∧ fsi_cfam_config_read fsi_cfam_initial 0x14 4 = CFAM_CONFIG_CHIP_ID_BREAK := by
  have hunfold : fsi_cfam_config_read s addr 4 =
      configTableRead 0xc addr 4 s.engines := by
    unfold fsi_cfam_config_read
    rw [if_neg (by omega), if_neg (by omega), if_neg (by omega)]
  refine ⟨?_, ?_, ?_, by decide, by decide, by decide⟩
  · intro k hk hEq
    rw [hunfold, hEq]
    exact configTableRead_slot s.engines 0x0C k hk
  · intro hEq
    rw [hunfold, hEq]
    exact configTableRead_end s.engines 0x0C
  · intro hmiss
    rw [hunfold]
    exact configTableRead_miss s.engines 0x0C addr hmiss

/-- Witness for C1: with two attached engines, the read at 0x10 returns the
second engine descriptor word. -/
theorem cfam_config_engine_table_walk_witness :
    fsi_cfam_config_read
      { engines := [{ config := SCRATCHPAD_DESCRIPTOR, reg := 0 },
                    { config := 0xAB, reg := 3 }] } 0x10 4 = 0xAB :=
  (cfam_config_engine_table_walk
    { engines := [{ config := SCRATCHPAD_DESCRIPTOR, reg := 0 },
                  { config := 0xAB, reg := 3 }] } 0x10 (by decide)).1
    1 (by decide) (by decide)

/-- Claim C6: in every state, config reads at 0x00, 0x04 and 0x08 return the
fixed chip identity, PEEK descriptor and FSI descriptor constants,
independently of the attached engines and of all prior writes. -/
theorem cfam_config_fixed_low_reads (s : FSICFAMState) :
    fsi_cfam_config_read s 0x00 4 = CFAM_CONFIG_CHIP_ID_P9
    ∧ fsi_cfam_config_read s 0x04 4 = PEEK_DESCRIPTOR
    ∧ fsi_cfam_config_read s 0x08 4 = FSI_DESCRIPTOR := by
  refine ⟨?_, ?_, ?_⟩ <;> simp [fsi_cfam_config_read]

/-- Claim C3: a 4-byte config write of the break sentinel 0xc0de0000 at byte
address 0x10 (register unit CFAM_CONFIG_CHIP_ID + 4 under the addr >>> 2
decode) cold-resets the whole secondary bus, and 0x10 is the same byte
address whose read returns the end-of-table 0 marker in the default
one-engine configuration. -/
theorem cfam_write_break_at_0x10_resets (s : FSICFAMState) :
    fsi_cfam_config_write s 0x10 0xc0de0000 4 = bus_cold_reset s
    ∧ fsi_cfam_config_read fsi_cfam_initial 0x10 4 = 0 := by
  constructor
  · unfold fsi_cfam_config_write
    rw [if_pos (Or.inr (by decide)), if_pos (by decide)]
  · decide

/-- Claim C2: for 4-byte-aligned addresses, a config write cold-resets the
secondary bus exactly when the register unit (addr >>> 2) is the chip
identity register unit 0 (byte address 0x00) or the aliased register unit 4
(byte address 0x10) and the datum equals the break sentinel; every other
address/datum combination leaves the state unchanged. -/
theorem cfam_config_write_break_reset_iff (s : FSICFAMState) (addr data : Nat)
    (h4 : addr % 4 = 0) :
    ((addr = 0x00 ∨ addr = 0x10) ∧ data = CFAM_CONFIG_CHIP_ID_BREAK →
        fsi_cfam_config_write s addr data 4 = bus_cold_reset s)
    ∧ (¬((addr = 0x00 ∨ addr = 0x10) ∧ data = CFAM_CONFIG_CHIP_ID_BREAK) →
        fsi_cfam_config_write s addr data 4 = s) := by
  have htr : TO_REG addr = addr / 4 := by
    simp [TO_REG, Nat.shiftRight_eq_div_pow]
  have hcid : CFAM_CONFIG_CHIP_ID = 0 := rfl
  constructor
  · rintro ⟨haddr, hdata⟩
    have hsel : TO_REG addr = CFAM_CONFIG_CHIP_ID ∨
        TO_REG addr = CFAM_CONFIG_CHIP_ID + 4 := by
      rw [htr, hcid]
      rcases haddr with h0 | h0 <;> subst h0 <;> simp
    unfold fsi_cfam_config_write
    rw [if_pos hsel, if_pos hdata]
  · intro hn
    unfold fsi_cfam_config_write
    by_cases hsel : TO_REG addr = CFAM_CONFIG_CHIP_ID ∨
        TO_REG addr = CFAM_CONFIG_CHIP_ID + 4
    · rw [if_pos hsel]
      have hdata : data ≠ CFAM_CONFIG_CHIP_ID_BREAK := by
        intro hd
        apply hn
        refine ⟨?_, hd⟩
        rw [htr, hcid] at hsel
        omega
      rw [if_neg hdata]
    · rw [if_neg hsel]

/-- Witness for C2: a break-sentinel write at byte address 0x08 is a no-op
on a state with a dirty scratchpad register. -/
theorem cfam_config_write_break_reset_iff_witness :
    fsi_cfam_config_write
        { engines := [{ config := SCRATCHPAD_DESCRIPTOR, reg := 5 }] }
        0x08 0xc0de0000 4 =
      { engines := [{ config := SCRATCHPAD_DESCRIPTOR, reg := 5 }] } :=
  (cfam_config_write_break_reset_iff
      { engines := [{ config := SCRATCHPAD_DESCRIPTOR, reg := 5 }] }
      0x08 0xc0de0000 (by decide)).2 (by decide)

/-- Claim C4: from any state and any prior datum written to the scratchpad
register at offset 0, the break-sentinel config write at byte address 0x00
cold-resets the bus, and a subsequent scratchpad read at offset 0 yields 0. -/
theorem cfam_break_write_resets_scratchpad (s : FSICFAMState) (X : Nat) :
    fsi_lbus_read
      (fsi_cfam_config_write (fsi_lbus_write s 0 X 4) 0x00
        CFAM_CONFIG_CHIP_ID_BREAK 4) 0 4 = 0 := by
  obtain ⟨l⟩ := s
  cases l with
  | nil =>
      simp [fsi_lbus_write, fsi_lbus_read, fsi_cfam_config_write,
        bus_cold_reset, fsi_cfam_unimplemented_read, TO_REG,
        CFAM_CONFIG_CHIP_ID]
  | cons e rest =>
      simp [fsi_lbus_write, fsi_lbus_read, fsi_cfam_config_write,
        bus_cold_reset, fsi_scratchpad_write, fsi_scratchpad_read,
        fsi_scratchpad_reset, TO_REG, CFAM_CONFIG_CHIP_ID]

/-- Claim C5: for every state, issuing the break-sentinel config write at
byte address 0x00 twice in succession leaves the state identical to issuing
it once. -/
theorem cfam_break_write_idempotent (s : FSICFAMState) :
    fsi_cfam_config_write
        (fsi_cfam_config_write s 0x00 CFAM_CONFIG_CHIP_ID_BREAK 4)
        0x00 CFAM_CONFIG_CHIP_ID_BREAK 4 =
      fsi_cfam_config_write s 0x00 CFAM_CONFIG_CHIP_ID_BREAK 4 := by
  have hw : ∀ t : FSICFAMState,
      fsi_cfam_config_write t 0x00 CFAM_CONFIG_CHIP_ID_BREAK 4 =
        bus_cold_reset t := by
    intro t
    unfold fsi_cfam_config_write
    rw [if_pos (Or.inl (by decide)), if_pos rfl]
  rw [hw, hw]
  simp only [bus_cold_reset]
  exact congrArg FSICFAMState.mk (map_reset_idem s.engines)

/-- Claim C7: for every 32-bit value X, a scratchpad write of X at offset 0
followed by a read at offset 0 returns X, and the value persists across any
later write at a nonzero offset (reads are pure functions of the state in
this model, so they cannot disturb the register). -/
theorem scratchpad_write_read_roundtrip (e : FSILBusDevice) (X : Nat)
    (hX : X < 2 ^ 32) :
    fsi_scratchpad_read (fsi_scratchpad_write e 0 X 4) 0 4 = X
    ∧ ∀ a d sz, a ≠ 0 →
        fsi_scratchpad_read
          (fsi_scratchpad_write (fsi_scratchpad_write e 0 X 4) a d sz) 0 4
          = X := by
  have hmod : X % 2 ^ 32 = X := Nat.mod_eq_of_lt hX
  constructor
  · simp [fsi_scratchpad_read, fsi_scratchpad_write, hmod]
    omega
  · intro a d sz ha
    simp [fsi_scratchpad_read, fsi_scratchpad_write, ha, hmod]
    omega

/-- Witness for C7: writing 0xdeadbeef to the fresh scratchpad at offset 0
and reading offset 0 back yields 0xdeadbeef. -/
theorem scratchpad_write_read_roundtrip_witness :
    fsi_scratchpad_read
      (fsi_scratchpad_write fsi_scratchpad_initial 0 0xdeadbeef 4) 0 4
      = 0xdeadbeef :=
  (scratchpad_write_read_roundtrip fsi_scratchpad_initial 0xdeadbeef
    (by decide)).1

/-- Claim C8: at every nonzero offset of the scratchpad window, a read
returns 0, and a write of any datum leaves the scratchpad state (in
particular its register value) unchanged. -/
theorem scratchpad_nonzero_offset_noop (e : FSILBusDevice) (addr : Nat)
    (h : addr ≠ 0) :
    fsi_scratchpad_read e addr 4 = 0
    ∧ ∀ data sz, fsi_scratchpad_write e addr data sz = e := by
  constructor
  · simp [fsi_scratchpad_read, h]
  · intro data sz
    simp [fsi_scratchpad_write, h]

/-- Witness for C8: at offset 4 of a dirty scratchpad, the read returns 0 and
a write of 0x1234 changes nothing. -/
theorem scratchpad_nonzero_offset_noop_witness :
    fsi_scratchpad_read { config := SCRATCHPAD_DESCRIPTOR, reg := 9 } 4 4 = 0
    ∧ fsi_scratchpad_write { config := SCRATCHPAD_DESCRIPTOR, reg := 9 }
        4 0x1234 4 = { config := SCRATCHPAD_DESCRIPTOR, reg := 9 } :=
  ⟨(scratchpad_nonzero_offset_noop
      { config := SCRATCHPAD_DESCRIPTOR, reg := 9 } 4 (by decide)).1,
   (scratchpad_nonzero_offset_noop
      { config := SCRATCHPAD_DESCRIPTOR, reg := 9 } 4 (by decide)).2 0x1234 4⟩

/-- Claim C9: every byte offset of the 2 MiB CFAM window outside the config
region [0, 0x400), the primary-slave window [0x800, 0x800 + W) and the
secondary-bus region [0xC00, 0xC00 + X) reads as 0, and a write there, with
any datum, leaves the state unchanged. -/
theorem cfam_unmapped_read_zero_write_noop (slaveRead : Nat → Nat → Nat)
    (W X : Nat) (s : FSICFAMState) (a data sz : Nat)
    (_hlt : a < 2 * 1024 * 1024)
    (h1 : ¬ a < 0x400)
    (h2 : ¬ (0x800 ≤ a ∧ a < 0x800 + W))
    (h3 : ¬ (0xC00 ≤ a ∧ a < 0xC00 + X)) :
    fsi_cfam_mmio_read slaveRead W X s a sz = 0
    ∧ fsi_cfam_mmio_write W X s a data sz = s := by
  constructor
  · simp [fsi_cfam_mmio_read, h1, h2, h3, fsi_cfam_unimplemented_read]
  · simp [fsi_cfam_mmio_write, h1, h2, h3, fsi_cfam_unimplemented_write]

/-- Witness for C9: with windows of width 0x400 each, offset 0x500 of the
default CFAM reads as 0 and a write of 3 there changes nothing. -/
theorem cfam_unmapped_read_zero_write_noop_witness :
    fsi_cfam_mmio_read (fun _ _ => 7) 0x400 0x400 fsi_cfam_initial 0x500 4 = 0
    ∧ fsi_cfam_mmio_write 0x400 0x400 fsi_cfam_initial 0x500 3 4 =
        fsi_cfam_initial :=
  cfam_unmapped_read_zero_write_noop (fun _ _ => 7) 0x400 0x400
    fsi_cfam_initial 0x500 3 4 (by decide) (by decide) (by decide) (by decide)

/-- Claim C10: no write at any address of the 2 MiB window (config region,
primary-slave window, secondary-bus region or unmapped space) changes the
ordered list of attached engines or any engine class-level descriptor word:
the list of descriptor words, position by position, is preserved, so the only
state a write can touch is the engine register state. Reads are pure
functions of the state in this model and change nothing. -/
theorem cfam_writes_preserve_engine_table (W X : Nat) (s : FSICFAMState)
    (a data sz : Nat) :
    (fsi_cfam_mmio_write W X s a data sz).engines.map FSILBusDevice.config
      = s.engines.map FSILBusDevice.config := by
  unfold fsi_cfam_mmio_write
  split
  · unfold fsi_cfam_config_write
    split
    · split
      · simp only [bus_cold_reset]
        exact map_config_map_reset s.engines
      · rfl
    · rfl
  · split
    · rfl
    · split
      · unfold fsi_lbus_write
        split
        · cases hE : s.engines with
          | nil => simp [hE]
          | cons e rest =>
              simp [hE, fsi_scratchpad_write_config]
        · rfl
      · rfl
